import Mathlib

/-!
Verification of the MyTube API gateway (src/HW3/API/api.py) and of the
video-ingestion and processing pipeline that the accompanying design
document specifies as the backend implied by the gateway routes.

The gateway handlers are embedded directly from the Python source.
The pipeline components (Upload Receiver, Status Store, Publish Gate,
Search index) have no implementation in the repository, so they are
modelled from the design document; each such definition carries a
doc comment saying so.
-/

namespace MyTube

/-! ### Gateway embedding (from src/HW3/API/api.py) -/

/-- Failure modes a gateway handler can produce at runtime: an explicit
HTTPException with a status code and detail, or a Python NameError from
evaluating a name that is bound in no enclosing scope. -/
inductive GatewayFailure where
  | http (status : Nat) (detail : String)
  | nameError (name : String)
deriving DecidableEq

/-- Schema TokenPair from api.py (token_type defaults to Bearer,
expires_in defaults to 3600). -/
structure TokenPair where
  access_token : String
  refresh_token : String
  token_type : String
  expires_in : Nat
deriving DecidableEq

/-- Schema RefreshRequest from api.py. -/
structure RefreshRequest where
  refresh_token : String
deriving DecidableEq

/-- Handler refresh (api.py lines 75-83): raises HTTP 400 when the body
has a falsy (empty) refresh_token, otherwise returns a fresh TokenPair
echoing the supplied refresh_token. -/
def refresh (body : RefreshRequest) : Except GatewayFailure TokenPair :=
  if body.refresh_token = "" then
    .error (.http 400 "invalid refresh_token")
  else
    .ok ⟨"access.refreshed", body.refresh_token, "Bearer", 3500⟩

/-- Schema UserOut from api.py; datetimes are modelled as Nat, UUIDs as
Nat, the role enum as its string value. -/
structure UserOut where
  id : Nat
  email : String
  display_name : Option String
  bio : Option String
  role : String
  created_at : Nat
deriving DecidableEq

/-- Names bound at module scope of api.py, in source order: the imported
names followed by every top-level assignment, class and function
definition. The name user_id is absent (it occurs only as a parameter
of create_video and update_user, whose scopes do not enclose get_me),
and it is not a Python builtin. -/
def apiModuleNames : List String :=
  ["datetime", "Enum", "Annotated", "UUID", "uuid4", "ZoneInfo",
   "APIRouter", "FastAPI", "File", "Form", "Header", "HTTPException",
   "BaseModel", "Field", "HttpUrl", "constr", "RedirectResponse",
   "app", "SortOrder", "PageMeta", "BaseOK", "PresignedPart",
   "auth", "TokenPair", "LoginRequest", "RefreshRequest",
   "login", "refresh", "logout",
   "users", "UserRole", "UserCreate", "UserUpdate", "UserOut",
   "create_user", "get_me", "update_user",
   "videos", "Visibility", "VideoCreate", "VideoOut", "VideoUpdate",
   "create_video", "get_video", "update_video", "delete_video",
   "search_videos",
   "uploads", "UploadInitRequest", "UploadInitResponse", "init_upload",
   "processing", "ProcessStatus", "get_processing_status",
   "PublishRequest", "PublishResponse", "publish_video",
   "social", "CommentCreate", "CommentOut", "create_comment",
   "get_comment", "delete_comment", "LikeRequest", "LikeStatus",
   "set_like", "ViewPing", "ViewAck", "ping_view",
   "notif", "NotifyRequest", "NotifyResponse", "send_notification",
   "stats", "VideoStats", "UserStats", "get_video_stats",
   "get_user_stats",
   "search", "SearchResponse", "search_videos_global",
   "service", "Health", "healthcheck"]

/-- Handler get_me (api.py lines 132-139): its body builds a UserOut
whose id field is the expression user_id. Python resolves that name
against the local scope (only the parameter authorization) and then the
module scope; when the lookup fails the handler raises NameError before
any UserOut is produced. The unreachable success branch returns the
synthetic demo record the source would build. -/
def get_me (authorization : String) : Except GatewayFailure UserOut :=
  if "user_id" ∈ "authorization" :: apiModuleNames then
    .ok ⟨0, "demo@example.com", some "Demo", none, "user", 0⟩
  else
    .error (.nameError "user_id")

/-- Schema ViewPing from api.py (position_sec is constrained to be
nonnegative, hence a Nat). -/
structure ViewPing where
  video_id : Nat
  position_sec : Nat
deriving DecidableEq

/-- Schema ViewAck from api.py. -/
structure ViewAck where
  video_id : Nat
  counted : Bool
  view_id : Option Nat
deriving DecidableEq

/-- Handler ping_view (api.py lines 391-396). The uuid4() call is
modelled by the fresh parameter; it is consumed only when the view is
counted, mirroring the conditional expression in the source. -/
def ping_view (fresh : Nat) (body : ViewPing) : ViewAck :=
  let counted := decide (body.position_sec > 10)
  ⟨body.video_id, counted, if counted then some fresh else none⟩

/-- Schema ProcessStatus from api.py. -/
structure ProcessStatus where
  video_id : Nat
  status : String
  progress : Nat
deriving DecidableEq

/-- Handler get_processing_status (api.py lines 292-294): a stub that
fabricates the same record for every video id. -/
def get_processing_status (video_id : Nat) : ProcessStatus :=
  ⟨video_id, "running", 42⟩

/-! ### Pipeline data model

Modelled from the spec: the repository contains no implementation of
the video-ingestion pipeline (Upload Receiver, Status Store, Publish
Gate, Search index); the definitions below follow sections 3, 4 and 8
of the design document. -/

/-- Visibility enum shared by the gateway schemas and the pipeline. -/
inductive Visibility where
  | public
  | unlisted
  | «private»
deriving DecidableEq

/-- Lifecycle status of a Video: uploaded, queued, processing, ready,
failed (design document section 3). -/
inductive LifecycleStatus where
  | uploaded
  | queued
  | processing
  | ready
  | failed
deriving DecidableEq

/-- Modelled from the spec: the Video record of design document
section 3, with the published timestamp that the Publish Gate contract
sets on success. Timestamps and identifiers are Nat. -/
structure Video where
  id : Nat
  owner_id : Nat
  title : String
  description : Option String
  tags : List String
  visibility : Visibility
  status : LifecycleStatus
  duration_sec : Option Nat
  created_at : Nat
  published_at : Option Nat
deriving DecidableEq

/-- Error raised by the Publish Gate. -/
inductive PublishError where
  | NotReady
deriving DecidableEq

/-- Modelled from the spec: the Publish Gate contract of design
document section 4.5. publish fails with NotReady unless the status is
ready; on success it atomically sets visibility and a published
timestamp; a repeated publish with the same visibility on an already
published video is a no-op. -/
def publish (v : Video) (target : Visibility) (now : Nat) :
    Except PublishError Video :=
  if v.status = .ready then
    if v.published_at.isSome ∧ v.visibility = target then
      .ok v
    else
      .ok { v with visibility := target, published_at := some now }
  else
    .error .NotReady

/-- Error raised by the Status Store. -/
inductive StatusStoreError where
  | InvalidTransition
deriving DecidableEq

/-- Modelled from the spec: the legal status transition graph of design
document section 4.4: uploaded to queued to processing to ready or
failed. -/
def legalTransition : LifecycleStatus → LifecycleStatus → Bool
  | .uploaded, .queued => true
  | .queued, .processing => true
  | .processing, .ready => true
  | .processing, .failed => true
  | _, _ => false

/-- Modelled from the spec: the StatusRecord of design document
section 3, extended with the attempt counter the store needs in order
to reset progress exactly when a new processing attempt starts. -/
structure StatusRecord where
  video_id : Nat
  status : LifecycleStatus
  attempt : Nat
  progress : Nat
  error_detail : Option String
deriving DecidableEq

/-- Modelled from the spec: the transactional progress update of design
document section 4.4. A report for a newer attempt installs that
attempt and its progress (the reset path); a report for the current
attempt can only raise progress; a stale report is ignored. -/
def reportProgress (r : StatusRecord) (attempt p : Nat) : StatusRecord :=
  if r.attempt < attempt then
    { r with attempt := attempt, progress := p }
  else if attempt = r.attempt then
    { r with progress := max r.progress p }
  else
    r

/-- Modelled from the spec: the status update of design document
section 4.4; an illegal transition fails with InvalidTransition. -/
def updateStatus (r : StatusRecord) (new : LifecycleStatus) :
    Except StatusStoreError StatusRecord :=
  if legalTransition r.status new then
    .ok { r with status := new }
  else
    .error .InvalidTransition

/-- Stored state after an update request: a rejected update leaves the
record exactly as it was. -/
def storeApply (r : StatusRecord) (new : LifecycleStatus) : StatusRecord :=
  match updateStatus r new with
  | .ok r2 => r2
  | .error _ => r

/-! ### Upload Receiver (modelled from the spec, section 4.1) -/

/-- Modelled from the spec: a received chunk, determined by the byte
offset at which it starts and its data; the byte range it occupies is
the half-open interval from start to stop. -/
structure Chunk where
  start : Nat
  data : List Nat
deriving DecidableEq

/-- End of the byte range a chunk occupies. -/
def Chunk.stop (c : Chunk) : Nat := c.start + c.data.length

/-- Boolean test: does chunk c cover byte offset i. -/
def coversB (i : Nat) (c : Chunk) : Bool := decide (c.start ≤ i ∧ i < c.stop)

/-- Exact coverage of the interval from 0 to size, with no gaps and no
overlaps, stated abstractly: every offset below size lies in exactly
one received range and every offset at or beyond size lies in none. -/
def CoversExactly (cs : List Chunk) (size : Nat) : Prop :=
  ∀ i : Nat, cs.countP (coversB i) = if i < size then 1 else 0

/-- Order on chunks by starting offset. -/
def chunkLE (c d : Chunk) : Prop := c.start ≤ d.start

instance : DecidableRel chunkLE := fun c d => Nat.decLe c.start d.start

instance : IsTotal Chunk chunkLE := ⟨fun c d => Nat.le_total c.start d.start⟩

instance : IsTrans Chunk chunkLE := ⟨fun _ _ _ hab hbc => Nat.le_trans hab hbc⟩

/-- Chunks that carry at least one byte; a zero-length range covers
nothing and is irrelevant to coverage. -/
def posChunks (cs : List Chunk) : List Chunk :=
  cs.filter (fun c => decide (0 < c.data.length))

/-- Received nonempty chunks sorted by starting offset. -/
def sortedChunks (cs : List Chunk) : List Chunk :=
  List.insertionSort chunkLE (posChunks cs)

/-- Walk a sorted chunk list checking that each chunk starts exactly at
the current position and that the walk ends exactly at size. -/
def chainB (size : Nat) : Nat → List Chunk → Bool
  | pos, [] => pos == size
  | pos, c :: rest => (c.start == pos) && chainB size c.stop rest

/-- Executable coverage check used by complete. -/
def exactCover (cs : List Chunk) (size : Nat) : Bool :=
  chainB size 0 (sortedChunks cs)

/-- The assembled object: chunk data concatenated in offset order. -/
def assemble (cs : List Chunk) : List Nat :=
  (sortedChunks cs).foldr (fun c acc => c.data ++ acc) []

/-- Modelled from the spec: the content checksum collaborator; the
concrete function is immaterial to the verified properties. -/
def checksumFn (bytes : List Nat) : Nat :=
  bytes.foldl (fun acc b => (acc * 31 + b) % 4294967296) 0

/-- Errors of the Upload Receiver (design document section 4.1). -/
inductive UploadError where
  | IncompleteUpload
  | ChecksumMismatch
  | BufferOverflow
deriving DecidableEq

/-- Modelled from the spec: the UploadSession of design document
section 3: identifier, target video id, expected total size, received
byte ranges, content type, expiry timestamp. -/
structure UploadSession where
  id : Nat
  video_id : Nat
  declared_size : Nat
  content_type : String
  expires_at : Nat
  chunks : List Chunk
deriving DecidableEq

/-- Modelled from the spec: complete (design document section 4.1)
fails with IncompleteUpload unless the received ranges cover the
declared size exactly; it verifies a content checksum when one is
supplied, failing with ChecksumMismatch, and otherwise returns the
assembled object. -/
def complete (s : UploadSession) (supplied : Option Nat) :
    Except UploadError (List Nat) :=
  if exactCover s.chunks s.declared_size then
    match supplied with
    | none => .ok (assemble s.chunks)
    | some ck =>
      if checksumFn (assemble s.chunks) = ck then
        .ok (assemble s.chunks)
      else
        .error .ChecksumMismatch
  else
    .error .IncompleteUpload

/-- Result classification of appendChunk. -/
inductive AppendResult where
  | accepted
  | duplicate
  | out_of_order
deriving DecidableEq

/-- Two chunks occupy the same byte range. -/
def sameRange (c d : Chunk) : Bool :=
  (c.start == d.start) && (c.stop == d.stop)

/-- The byte range of c has already been received in the session. -/
def rangeReceived (s : UploadSession) (c : Chunk) : Bool :=
  s.chunks.any (sameRange c)

/-- End of the contiguous prefix of received data: how far from offset
0 the received ranges extend without a gap. -/
def contigGo : Nat → List Chunk → Nat
  | pos, [] => pos
  | pos, c :: rest =>
    if c.start ≤ pos then contigGo (max pos c.stop) rest else pos

/-- Contiguous write position of a session. -/
def contigEnd (cs : List Chunk) : Nat := contigGo 0 (sortedChunks cs)

/-- Bytes held for ranges beyond the contiguous prefix. -/
def bufferedBytes (cs : List Chunk) : Nat :=
  (cs.filter (fun c => decide (contigEnd cs < c.start))).foldl
    (fun acc c => acc + c.data.length) 0

/-- Illustrative 64MB out-of-order buffer cap (design document
section 9). -/
def bufferCap : Nat := 67108864

/-- Modelled from the spec: appendChunk (design document section 4.1).
A range already received is idempotently discarded as a duplicate with
no write; a range starting at the contiguous write position is
accepted; any other range is buffered out of order up to the buffer
cap, beyond which the session fails with BufferOverflow. -/
def appendChunk (s : UploadSession) (c : Chunk) :
    Except UploadError (UploadSession × AppendResult) :=
  if rangeReceived s c then
    .ok (s, .duplicate)
  else if c.start = contigEnd s.chunks then
    .ok ({ s with chunks := s.chunks ++ [c] }, .accepted)
  else if bufferedBytes (s.chunks ++ [c]) ≤ bufferCap then
    .ok ({ s with chunks := s.chunks ++ [c] }, .out_of_order)
  else
    .error .BufferOverflow

/-- Session state after one chunk delivery (a failed append leaves the
stored ranges unchanged). -/
def deliver (s : UploadSession) (c : Chunk) : UploadSession :=
  match appendChunk s c with
  | .ok (s2, _) => s2
  | .error _ => s

/-- Session state after a sequence of chunk deliveries. -/
def deliverList (s : UploadSession) (cs : List Chunk) : UploadSession :=
  cs.foldl deliver s

/-! ### Publish Gate and Search index (modelled from the spec) -/

/-- Modelled from the spec: the externally observable state of the
pipeline together with the Search index, which receives publish events
only from the Publish Gate (design document section 6). The index
lists the discoverable video ids. -/
structure SystemState where
  videos : Nat → Option Video
  index : List Nat

/-- Initial state: no videos, nothing discoverable. -/
def emptyState : SystemState := ⟨fun _ => none, []⟩

/-- Operations through which the pipeline state evolves: the Upload
Receiver registering a completed upload, the Status Store advancing
the lifecycle status along the legal graph, and the Publish Gate
publishing a video. -/
inductive Op where
  | register (id : Nat)
  | setStatus (id : Nat) (st : LifecycleStatus)
  | publishOp (id : Nat) (target : Visibility) (now : Nat)

/-- Modelled from the spec: the video record the Upload Receiver
registers on a completed upload, in queued status, private and
unpublished. -/
def newVideo (id : Nat) : Video :=
  ⟨id, 0, "", none, [], .«private», .queued, none, 0, none⟩

/-- Modelled from the spec: one pipeline step. Registration creates a
fresh record only for an unused id; a status update is applied only
along the legal transition graph; a publish event updates the video
through the Publish Gate and, only on success, adds the id to the
Search index. No other operation touches the index. -/
def step (s : SystemState) : Op → SystemState
  | .register id =>
    match s.videos id with
    | some _ => s
    | none => ⟨fun j => if j = id then some (newVideo id) else s.videos j, s.index⟩
  | .setStatus id st =>
    match s.videos id with
    | some v =>
      if legalTransition v.status st then
        ⟨fun j => if j = id then some { v with status := st } else s.videos j, s.index⟩
      else
        s
    | none => s
  | .publishOp id target now =>
    match s.videos id with
    | some v =>
      match publish v target now with
      | .ok v2 =>
        ⟨fun j => if j = id then some v2 else s.videos j, id :: s.index⟩
      | .error _ => s
    | none => s

/-- State reached from the initial state by a sequence of operations. -/
def runOps (ops : List Op) : SystemState :=
  ops.foldl step emptyState

/-- Invariant: every discoverable video exists and has been published
(its published timestamp is set, which only the Publish Gate does). -/
def Discoverable (s : SystemState) : Prop :=
  ∀ id ∈ s.index, ∃ v, s.videos id = some v ∧ v.published_at.isSome = true

/-! ### Theorems -/

/-- C7: the gateway performs exactly one deliberate validation check:
refresh raises HTTP 400 with detail invalid refresh_token precisely
when the supplied refresh_token is empty, and is otherwise pure; the
claim that no other handler raises a failure is however contradicted
by get_me, which fails at runtime on every input. -/
theorem gateway_single_validation_check :
    (∀ tok : String,
      refresh ⟨tok⟩ =
        if tok = "" then .error (.http 400 "invalid refresh_token")
        else .ok ⟨"access.refreshed", tok, "Bearer", 3500⟩)
    ∧ (∀ a : String, ∃ e, get_me a = .error e) :=
  ⟨fun _ => rfl, fun _ => ⟨.nameError "user_id", rfl⟩⟩

/-- C8: every call of get_me fails at runtime with a NameError on the
name user_id, whatever the authorization header holds, so the handler
never returns a UserOut value. -/
theorem get_me_always_fails :
    ∀ authorization : String,
      get_me authorization = .error (.nameError "user_id") :=
  fun _ => rfl

/-- C9: ping_view counts a view exactly when position_sec is strictly
greater than 10 (a position of exactly 10 is not counted), and the
returned view_id is present exactly when the view is counted. -/
theorem ping_view_counted_iff :
    ∀ (fresh : Nat) (body : ViewPing),
      ((ping_view fresh body).counted = true ↔ 10 < body.position_sec)
      ∧ ((ping_view fresh body).view_id.isSome = (ping_view fresh body).counted)
      ∧ (ping_view fresh ⟨body.video_id, 10⟩).counted = false := by
  intro fresh body
  refine ⟨?_, ?_, rfl⟩
  · simp [ping_view]
  · by_cases h : 10 < body.position_sec <;> simp [ping_view, h]

/-- Witness for C9 at a concrete ping. -/
theorem ping_view_counted_iff_witness :
    (ping_view 7 ⟨3, 11⟩).counted = true :=
  (ping_view_counted_iff 7 ⟨3, 11⟩).1.mpr (by decide)

/-- C10: get_processing_status fabricates the same answer for every
video id: the requested id, status running and progress 42; the status
is independent of the input and is never queued, ready or failed. -/
theorem get_processing_status_constant :
    ∀ v w : Nat,
      get_processing_status v = ⟨v, "running", 42⟩
      ∧ (((get_processing_status v).status == "queued") = false)
      ∧ (((get_processing_status v).status == "ready") = false)
      ∧ (((get_processing_status v).status == "failed") = false)
      ∧ (get_processing_status v).status = (get_processing_status w).status
      ∧ (get_processing_status v).progress = (get_processing_status w).progress := by
  intro v w
  exact ⟨rfl, rfl, rfl, rfl, rfl, rfl⟩

/-- C1: publish fails with NotReady for every video whose status is
not ready, and a second publish with the same target visibility right
after a successful publish succeeds and changes nothing. -/
theorem publish_notReady_and_idempotent :
    ∀ (v : Video) (t : Visibility) (n1 n2 : Nat),
      (v.status ≠ .ready → publish v t n1 = .error .NotReady)
      ∧ (∀ v2, publish v t n1 = .ok v2 → publish v2 t n2 = .ok v2) := by
  intro v t n1 n2
  constructor
  · intro h
    simp [publish, h]
  · intro v2 hok
    by_cases hs : v.status = .ready
    · rw [publish, if_pos hs] at hok
      split_ifs at hok with hc
      · injection hok with h
        subst h
        rw [publish, if_pos hs, if_pos hc]
      · injection hok with h
        subst h
        simp [publish, hs]
    · rw [publish, if_neg hs] at hok
      simp at hok

/-- Witness for C1: a queued video cannot be published, and publishing
a ready video twice with the same visibility returns the published
video unchanged. -/
theorem publish_notReady_and_idempotent_witness :
    publish ⟨1, 2, "t", none, [], .«private», .queued, none, 0, none⟩ .public 5 = .error .NotReady
    ∧ publish ⟨1, 2, "t", none, [], .public, .ready, none, 0, some 5⟩ .public 7 =
        .ok ⟨1, 2, "t", none, [], .public, .ready, none, 0, some 5⟩ :=
  ⟨(publish_notReady_and_idempotent ⟨1, 2, "t", none, [], .«private», .queued, none, 0, none⟩ .public 5 7).1 (by decide),
   (publish_notReady_and_idempotent ⟨1, 2, "t", none, [], .«private», .ready, none, 0, none⟩ .public 5 7).2
     ⟨1, 2, "t", none, [], .public, .ready, none, 0, some 5⟩ rfl⟩

/-- C4: a progress report can never lower the stored progress within
the current attempt, and whenever the stored progress drops at all the
record has moved to a strictly newer attempt. -/
theorem reportProgress_monotone :
    ∀ (r : StatusRecord) (a p : Nat),
      ((reportProgress r a p).attempt = r.attempt →
        r.progress ≤ (reportProgress r a p).progress)
      ∧ ((reportProgress r a p).progress < r.progress →
        r.attempt < (reportProgress r a p).attempt) := by
  intro r a p
  unfold reportProgress
  split_ifs with h1 h2 <;> constructor <;> intro h <;> simp_all <;> omega

/-- Witness for C4: a report of 50 within attempt 1 keeps the attempt
and raises stored progress from 30. -/
theorem reportProgress_monotone_witness :
    (reportProgress ⟨1, .processing, 1, 30, none⟩ 1 50).attempt =
      (⟨1, .processing, 1, 30, none⟩ : StatusRecord).attempt
    ∧ (⟨1, .processing, 1, 30, none⟩ : StatusRecord).progress ≤
        (reportProgress ⟨1, .processing, 1, 30, none⟩ 1 50).progress :=
  ⟨by decide, (reportProgress_monotone ⟨1, .processing, 1, 30, none⟩ 1 50).1 (by decide)⟩

/-- C5: every Status Store update either follows the legal transition
graph and installs the new status, or fails with InvalidTransition and
leaves the stored record exactly unchanged. -/
theorem updateStatus_legal_or_rejected :
    ∀ (r : StatusRecord) (new : LifecycleStatus),
      (legalTransition r.status new = true
        ∧ updateStatus r new = .ok { r with status := new }
        ∧ storeApply r new = { r with status := new })
      ∨ (legalTransition r.status new = false
        ∧ updateStatus r new = .error .InvalidTransition
        ∧ storeApply r new = r) := by
  intro r new
  cases hl : legalTransition r.status new with
  | true =>
    refine Or.inl ⟨rfl, ?_, ?_⟩ <;> simp [updateStatus, storeApply, hl]
  | false =>
    refine Or.inr ⟨rfl, ?_, ?_⟩ <;> simp [updateStatus, storeApply, hl]

/-- C3: delivering a chunk whose byte range was already received is an
idempotent no-op: appendChunk discards it as a duplicate without any
write, the session after any continuation of the delivery sequence is
identical with or without the duplicate, and so is the assembled
object. -/
theorem appendChunk_duplicate_noop :
    ∀ (s : UploadSession) (c : Chunk) (rest : List Chunk),
      rangeReceived s c = true →
      appendChunk s c = .ok (s, .duplicate)
      ∧ deliverList s (c :: rest) = deliverList s rest
      ∧ assemble (deliverList s (c :: rest)).chunks =
          assemble (deliverList s rest).chunks := by
  intro s c rest h
  have h1 : appendChunk s c = .ok (s, .duplicate) := by
    simp [appendChunk, h]
  have h2 : deliverList s (c :: rest) = deliverList s rest := by
    simp [deliverList, deliver, h1]
  exact ⟨h1, h2, by rw [h2]⟩

/-- Witness for C3: redelivering the already-received range starting
at 0 of length 2 (even with different payload bytes) is discarded and
leaves every later state unchanged. -/
theorem appendChunk_duplicate_noop_witness :
    rangeReceived ⟨1, 2, 100, "video/mp4", 999, [⟨0, [1, 2]⟩]⟩ ⟨0, [9, 9]⟩ = true
    ∧ (appendChunk ⟨1, 2, 100, "video/mp4", 999, [⟨0, [1, 2]⟩]⟩ ⟨0, [9, 9]⟩ =
        .ok (⟨1, 2, 100, "video/mp4", 999, [⟨0, [1, 2]⟩]⟩, .duplicate)
      ∧ deliverList ⟨1, 2, 100, "video/mp4", 999, [⟨0, [1, 2]⟩]⟩ [⟨0, [9, 9]⟩, ⟨2, [3]⟩] =
          deliverList ⟨1, 2, 100, "video/mp4", 999, [⟨0, [1, 2]⟩]⟩ [⟨2, [3]⟩]
      ∧ assemble (deliverList ⟨1, 2, 100, "video/mp4", 999, [⟨0, [1, 2]⟩]⟩ [⟨0, [9, 9]⟩, ⟨2, [3]⟩]).chunks =
          assemble (deliverList ⟨1, 2, 100, "video/mp4", 999, [⟨0, [1, 2]⟩]⟩ [⟨2, [3]⟩]).chunks) :=
  ⟨rfl, appendChunk_duplicate_noop ⟨1, 2, 100, "video/mp4", 999, [⟨0, [1, 2]⟩]⟩ ⟨0, [9, 9]⟩ [⟨2, [3]⟩] rfl⟩

/-- Unfolding of the coverage test into a proposition. -/
theorem coversB_iff {i : Nat} {c : Chunk} :
    coversB i c = true ↔ (c.start ≤ i ∧ i < c.stop) := by
  simp [coversB]

/-- Dropping zero-length chunks does not change how often an offset is
covered. -/
theorem countP_posChunks (cs : List Chunk) (i : Nat) :
    (posChunks cs).countP (coversB i) = cs.countP (coversB i) := by
  induction cs with
  | nil => rfl
  | cons c rest ih =>
    by_cases h : 0 < c.data.length
    · simp only [posChunks, List.filter_cons] at ih ⊢
      simp [h, List.countP_cons, ih]
    · have hc : coversB i c = false := by
        simp only [coversB, Chunk.stop, decide_eq_false_iff_not]
        omega
      simp only [posChunks, List.filter_cons] at ih ⊢
      simp [h, List.countP_cons, ih, hc]

/-- Sorting does not change how often an offset is covered. -/
theorem countP_sortedChunks (cs : List Chunk) (p : Chunk → Bool) :
    (sortedChunks cs).countP p = (posChunks cs).countP p :=
  (List.perm_insertionSort chunkLE (posChunks cs)).countP_eq p

/-- A successful chain walk never passes the declared size. -/
theorem chainB_le (size : Nat) :
    ∀ (cs : List Chunk) (pos : Nat), chainB size pos cs = true → pos ≤ size
  | [], pos, h => by
    simp [chainB] at h
    omega
  | c :: rest, pos, h => by
    simp [chainB] at h
    have h2 := chainB_le size rest c.stop h.2
    have h1 := h.1
    simp only [Chunk.stop] at h2
    omega

/-- A successful chain walk starting at pos covers each offset of the
interval from pos to size exactly once and covers nothing outside it. -/
theorem chainB_counts (size : Nat) :
    ∀ (cs : List Chunk) (pos : Nat), chainB size pos cs = true →
      ∀ i, cs.countP (coversB i) = if pos ≤ i ∧ i < size then 1 else 0
  | [], pos, h, i => by
    simp [chainB] at h
    have hno : ¬(pos ≤ i ∧ i < size) := by omega
    simp [hno]
  | c :: rest, pos, h, i => by
    simp only [chainB, Bool.and_eq_true, beq_iff_eq] at h
    obtain ⟨h1, h2⟩ := h
    have hle := chainB_le size rest c.stop h2
    have ih := chainB_counts size rest c.stop h2 i
    rw [List.countP_cons, ih]
    have hss : c.start ≤ c.stop := Nat.le_add_right c.start c.data.length
    by_cases hc : coversB i c = true
    · obtain ⟨hc1, hc2⟩ := coversB_iff.mp hc
      rw [if_pos hc]
      split_ifs <;> omega
    · have hp : ¬(c.start ≤ i ∧ i < c.stop) := fun hh => hc (coversB_iff.mpr hh)
      rw [if_neg hc]
      split_ifs <;> omega

/-- Conversely, a sorted list of nonempty chunks that covers each
offset of the interval from pos to size exactly once and nothing else
passes the chain walk. -/
theorem counts_chainB (size : Nat) (cs : List Chunk) :
    List.Sorted chunkLE cs → (∀ c ∈ cs, 0 < c.data.length) →
    ∀ pos, pos ≤ size →
    (∀ i, cs.countP (coversB i) = if pos ≤ i ∧ i < size then 1 else 0) →
    chainB size pos cs = true := by
  induction cs with
  | nil =>
    intro _ _ pos hps hcount
    by_cases hlt : pos < size
    · have h0 := hcount pos
      rw [List.countP_nil, if_pos ⟨Nat.le_refl pos, hlt⟩] at h0
      omega
    · have : pos = size := by omega
      simp [chainB, this]
  | cons c rest ih =>
    intro hsort hlen pos hps hcount
    have hrest_sorted : List.Sorted chunkLE rest := hsort.of_cons
    have hmin : ∀ d ∈ rest, chunkLE c d := List.rel_of_sorted_cons hsort
    have hclen : 0 < c.data.length := hlen c (List.mem_cons_self c rest)
    have hcov_start : coversB c.start c = true :=
      coversB_iff.mpr ⟨Nat.le_refl _, by simp only [Chunk.stop]; omega⟩
    have hpos1 : 0 < (c :: rest).countP (coversB c.start) :=
      List.countP_pos_iff.mpr ⟨c, List.mem_cons_self c rest, hcov_start⟩
    have hstart_range : pos ≤ c.start ∧ c.start < size := by
      by_contra hcon
      have h1 := hcount c.start
      rw [if_neg hcon] at h1
      omega
    have hstart_eq : c.start = pos := by
      by_contra hne
      have hplt : pos < c.start := by
        rcases Nat.lt_or_ge pos c.start with h | h
        · exact h
        · exact absurd (Nat.le_antisymm h hstart_range.1) hne
      have hposlt : pos < size := Nat.lt_trans hplt hstart_range.2
      have h1 := hcount pos
      rw [if_pos ⟨Nat.le_refl pos, hposlt⟩] at h1
      have hpp : 0 < (c :: rest).countP (coversB pos) := by omega
      obtain ⟨d, hd, hdc⟩ := List.countP_pos_iff.mp hpp
      obtain ⟨hd1, _⟩ := coversB_iff.mp hdc
      rcases List.mem_cons.mp hd with rfl | hdr
      · omega
      · have hmd := hmin d hdr
        simp only [chunkLE] at hmd
        omega
    have hstop_le : c.stop ≤ size := by
      have hcov2 : coversB (c.stop - 1) c = true := by
        apply coversB_iff.mpr
        simp only [Chunk.stop]
        omega
      have hpos2 : 0 < (c :: rest).countP (coversB (c.stop - 1)) :=
        List.countP_pos_iff.mpr ⟨c, List.mem_cons_self c rest, hcov2⟩
      by_contra hcon
      have hbig : ¬(pos ≤ c.stop - 1 ∧ c.stop - 1 < size) := by
        simp only [Chunk.stop] at hcon ⊢
        omega
      have h1 := hcount (c.stop - 1)
      rw [if_neg hbig] at h1
      omega
    have hss : c.start ≤ c.stop := Nat.le_add_right c.start c.data.length
    have hrest_count :
        ∀ i, rest.countP (coversB i) = if c.stop ≤ i ∧ i < size then 1 else 0 := by
      intro i
      have h1 := hcount i
      rw [List.countP_cons] at h1
      by_cases hci : coversB i c = true
      · obtain ⟨hc1, hc2⟩ := coversB_iff.mp hci
        have hcond : pos ≤ i ∧ i < size := ⟨by omega, by omega⟩
        rw [if_pos hci, if_pos hcond] at h1
        rw [if_neg (show ¬(c.stop ≤ i ∧ i < size) from by omega)]
        omega
      · have hnc : ¬(c.start ≤ i ∧ i < c.stop) := fun hh => hci (coversB_iff.mpr hh)
        rw [if_neg hci, Nat.add_zero] at h1
        rw [h1]
        split_ifs <;> omega
    have hrest_len : ∀ d ∈ rest, 0 < d.data.length :=
      fun d hd => hlen d (List.mem_cons_of_mem c hd)
    have hchain := ih hrest_sorted hrest_len c.stop hstop_le hrest_count
    simp [chainB, hstart_eq, hchain]

/-- The executable coverage check of complete agrees with the abstract
no-gap no-overlap exact coverage of the declared interval. -/
theorem exactCover_iff_CoversExactly (cs : List Chunk) (size : Nat) :
    exactCover cs size = true ↔ CoversExactly cs size := by
  constructor
  · intro h i
    have hc := chainB_counts size (sortedChunks cs) 0 h i
    rw [← countP_posChunks cs i, ← countP_sortedChunks cs (coversB i), hc]
    simp
  · intro h
    apply counts_chainB size (sortedChunks cs)
      (List.sorted_insertionSort chunkLE (posChunks cs))
      ?_ 0 (Nat.zero_le size) ?_
    · intro c hc
      have hmem := (List.mem_insertionSort chunkLE).mp hc
      have := List.mem_filter.mp hmem
      exact of_decide_eq_true this.2
    · intro i
      rw [countP_sortedChunks cs, countP_posChunks cs i, h i]
      simp

/-- C2: complete succeeds exactly when the received byte ranges cover
the declared interval with no gaps and no overlaps and any supplied
checksum matches; a coverage violation fails with IncompleteUpload and
a checksum violation with ChecksumMismatch. The first conjunct relates
the executable check inside complete to the abstract coverage
statement. -/
theorem complete_iff_exact_cover :
    ∀ (s : UploadSession) (supplied : Option Nat),
      (exactCover s.chunks s.declared_size = true ↔
        CoversExactly s.chunks s.declared_size)
      ∧ ((∃ obj, complete s supplied = .ok obj) ↔
          (exactCover s.chunks s.declared_size = true
            ∧ ∀ ck, supplied = some ck → checksumFn (assemble s.chunks) = ck))
      ∧ (exactCover s.chunks s.declared_size = false →
          complete s supplied = .error .IncompleteUpload)
      ∧ (∀ ck, exactCover s.chunks s.declared_size = true →
          supplied = some ck → checksumFn (assemble s.chunks) ≠ ck →
          complete s supplied = .error .ChecksumMismatch) := by
  intro s supplied
  refine ⟨exactCover_iff_CoversExactly s.chunks s.declared_size, ⟨?_, ?_⟩, ?_, ?_⟩
  · rintro ⟨obj, hobj⟩
    cases hec : exactCover s.chunks s.declared_size with
    | false => simp [complete, hec] at hobj
    | true =>
      refine ⟨rfl, ?_⟩
      intro ck hck
      subst hck
      by_cases hcs : checksumFn (assemble s.chunks) = ck
      · exact hcs
      · simp [complete, hec, hcs] at hobj
  · rintro ⟨hec, hck⟩
    cases supplied with
    | none => exact ⟨assemble s.chunks, by simp [complete, hec]⟩
    | some ck =>
      have := hck ck rfl
      exact ⟨assemble s.chunks, by simp [complete, hec, this]⟩
  · intro hec
    simp [complete, hec]
  · intro ck hec hsup hne
    subst hsup
    simp [complete, hec, hne]

/-- Witness for C2: a session whose two chunks tile the declared size
3 completes; a session missing bytes fails with IncompleteUpload; a
covering session with a wrong supplied checksum fails with
ChecksumMismatch. -/
theorem complete_iff_exact_cover_witness :
    (∃ obj, complete ⟨1, 2, 3, "video/mp4", 9, [⟨0, [5, 6]⟩, ⟨2, [7]⟩]⟩ none = .ok obj)
    ∧ complete ⟨1, 2, 3, "video/mp4", 9, [⟨0, [5]⟩]⟩ none = .error .IncompleteUpload
    ∧ complete ⟨1, 2, 1, "video/mp4", 9, [⟨0, [1]⟩]⟩ (some 0) = .error .ChecksumMismatch :=
  ⟨(complete_iff_exact_cover ⟨1, 2, 3, "video/mp4", 9, [⟨0, [5, 6]⟩, ⟨2, [7]⟩]⟩ none).2.1.mpr
      ⟨by decide, fun ck h => nomatch h⟩,
   (complete_iff_exact_cover ⟨1, 2, 3, "video/mp4", 9, [⟨0, [5]⟩]⟩ none).2.2.1 (by decide),
   (complete_iff_exact_cover ⟨1, 2, 1, "video/mp4", 9, [⟨0, [1]⟩]⟩ (some 0)).2.2.2 0
     (by decide) rfl (by decide)⟩

/-- A successful publish leaves the published timestamp set. -/
theorem publish_ok_published (v v2 : Video) (t : Visibility) (now : Nat) :
    publish v t now = .ok v2 → v2.published_at.isSome = true := by
  intro h
  rw [publish] at h
  split_ifs at h with hs hc
  · injection h with h2
    subst h2
    exact hc.1
  · injection h with h2
    subst h2
    rfl

/-- Every pipeline step preserves the discoverability invariant. -/
theorem step_preserves_discoverable (s : SystemState) (op : Op) :
    Discoverable s → Discoverable (step s op) := by
  intro hinv
  cases op with
  | register id =>
    cases hv : s.videos id with
    | some v => simpa [step, hv] using hinv
    | none =>
      intro j hj
      simp only [step, hv] at hj ⊢
      obtain ⟨w, hw, hp⟩ := hinv j hj
      refine ⟨w, ?_, hp⟩
      by_cases hji : j = id
      · rw [hji] at hw
        rw [hv] at hw
        exact absurd hw (by simp)
      · simpa [hji] using hw
  | setStatus id st =>
    cases hv : s.videos id with
    | none => simpa [step, hv] using hinv
    | some v =>
      by_cases hl : legalTransition v.status st = true
      · intro j hj
        simp only [step, hv, hl, if_true] at hj ⊢
        obtain ⟨w, hw, hp⟩ := hinv j hj
        by_cases hji : j = id
        · subst hji
          rw [hv] at hw
          injection hw with hvw
          refine ⟨{ v with status := st }, by simp, ?_⟩
          rw [hvw]
          exact hp
        · exact ⟨w, by simpa [hji] using hw, hp⟩
      · simpa [step, hv, hl] using hinv
  | publishOp id t now =>
    cases hv : s.videos id with
    | none => simpa [step, hv] using hinv
    | some v =>
      cases hp : publish v t now with
      | error e => simpa [step, hv, hp] using hinv
      | ok v2 =>
        intro j hj
        simp only [step, hv, hp] at hj ⊢
        by_cases hji : j = id
        · subst hji
          exact ⟨v2, by simp, publish_ok_published v v2 t now hp⟩
        · have hj2 : j ∈ s.index := by
            rcases List.mem_cons.mp hj with h | h
            · exact absurd h hji
            · exact h
          obtain ⟨w, hw, hpw⟩ := hinv j hj2
          exact ⟨w, by simpa [hji] using hw, hpw⟩

/-- Folding steps over any starting state preserves discoverability. -/
theorem foldl_step_discoverable :
    ∀ (ops : List Op) (s : SystemState),
      Discoverable s → Discoverable (ops.foldl step s) := by
  intro ops
  induction ops with
  | nil => exact fun s h => h
  | cons op rest ih =>
    exact fun s h => ih (step s op) (step_preserves_discoverable s op h)

/-- C6: an unpublished video is never discoverable. In every state
reachable from the empty system by pipeline operations, each video id
in the Search index belongs to an existing video whose published
timestamp has been set, and only a successful Publish Gate call sets
that timestamp or adds to the index. -/
theorem unpublished_never_discoverable :
    ∀ (ops : List Op) (id : Nat), id ∈ (runOps ops).index →
      ∃ v, (runOps ops).videos id = some v ∧ v.published_at.isSome = true := by
  intro ops id h
  have hempty : Discoverable emptyState :=
    fun j hj => absurd hj (List.not_mem_nil j)
  exact foldl_step_discoverable ops emptyState hempty id h

/-- Witness for C6: a registered video driven to ready and published
becomes discoverable, and the theorem instantiates on it. -/
theorem unpublished_never_discoverable_witness :
    1 ∈ (runOps [.register 1, .setStatus 1 .processing, .setStatus 1 .ready, .publishOp 1 .public 99]).index
    ∧ ∃ v,
      (runOps [.register 1, .setStatus 1 .processing, .setStatus 1 .ready, .publishOp 1 .public 99]).videos 1 = some v
      ∧ v.published_at.isSome = true :=
  ⟨by decide,
   unpublished_never_discoverable
     [.register 1, .setStatus 1 .processing, .setStatus 1 .ready, .publishOp 1 .public 99]
     1 (by decide)⟩

end MyTube
